import Mathlib

/-!
Verification of the knowledge-retrieval layer of the
Diaries-of-the-Upheaval repository (a Python application), via a shallow
embedding in Lean 4.

Modelling conventions used throughout this development:

* Python strings are modelled as `List Char`; a Lean string literal `s`
  is turned into its character list with `s.data`.
* Python whitespace (the ASCII part of the regex class `\s`, which is all
  that appears in this repository's data) is `isPySpace`.
* `re.split(r'\s+', text)` is `reSplitWs`, `str.split()` (no argument) is
  `pySplit`, `" ".join(ws)` is `joinSp`, `", ".join(ws)` is
  `joinWith ", ".data`, `str.lower` is `Char.toLower` mapped over the
  characters (the repository's data is ASCII), `str.strip()` is `pyStrip`,
  `str.title()` is `pyTitle`, the Python substring test `a in b` is
  `pySubstr a b`, and `os.path.basename` is `pyBasename`.
* Python list slicing `l[i:j]` on (possibly negative) integers is
  `pySlice`, with Python's clamping semantics.
* Machine-level `while` loops are embedded with an explicit fuel
  parameter: the function returns `none` when the loop runs for more
  iterations than the given fuel, so `(∀ fuel, f fuel = none)` expresses
  that the Python loop never terminates on that input.
* Network/API calls (OpenAI embeddings, ChromaDB queries) and the
  filesystem are effects outside the program text; they are passed in as
  explicit data (a list of per-sub-query outcomes, an existence predicate
  on paths, the fresh name chosen by `tempfile`).  A Python `try/except`
  block around such a call is embedded by matching on an `Except` value.
-/

/-- ASCII whitespace, the characters matched by Python's `\s` (and by
`str.split()` / `str.strip()`) on the ASCII plane: space, tab, newline,
carriage return, vertical tab, form feed. -/
def isPySpace (c : Char) : Bool :=
  c == ' ' || c == '\t' || c == '\n' || c == '\r' || c == '\x0b' || c == '\x0c'

/-- Worker for `re.split(r'\s+', text)`, a one-pass scanner: `cur` is the
word currently being accumulated and `skipping` records whether the scanner
is inside a whitespace run (whose first character already ended a word).
A maximal whitespace run ends the current word (possibly empty) and starts
a new one.  `re.split` on an empty string yields `['']`, and on a string
with leading (trailing) whitespace yields a leading (trailing) empty
string; this scanner reproduces those boundary artefacts. -/
def splitWsGo : Bool → List Char → List Char → List (List Char)
  | _, [], cur => [cur]
  | skipping, c :: rest, cur =>
    if isPySpace c then
      if skipping then splitWsGo true rest []
      else cur :: splitWsGo true rest []
    else splitWsGo false rest (cur ++ [c])

/-- Model of `re.split(r'\s+', text)`. -/
def reSplitWs (text : List Char) : List (List Char) :=
  splitWsGo false text []

/-- Python `str.split()` with no separator argument: split on whitespace
runs and discard empty fragments. -/
def pySplit (text : List Char) : List (List Char) :=
  (splitWsGo false text []).filter (fun w => !w.isEmpty)

/-- Python `sep.join(ws)`. -/
def joinWith (sep : List Char) : List (List Char) → List Char
  | [] => []
  | [w] => w
  | w :: ws => w ++ sep ++ joinWith sep ws

/-- Python `" ".join(ws)`. -/
def joinSp (ws : List (List Char)) : List Char :=
  joinWith [' '] ws

/-- Python `str.strip()`: remove leading and trailing whitespace. -/
def pyStrip (s : List Char) : List Char :=
  ((s.dropWhile isPySpace).reverse.dropWhile isPySpace).reverse

/-- The Python substring test `a in b`. -/
def pySubstr (a b : List Char) : Bool :=
  b.tails.any (fun t => a.isPrefixOf t)

/-- Clamp a Python slice index to an actual list index, per CPython
slice semantics: negative indices count from the end and are clamped at
0; non-negative indices are clamped at the length. -/
def pyClamp (n : Nat) (i : Int) : Nat :=
  if i < 0 then (i + n).toNat else min i.toNat n

/-- Python list slicing `l[i:j]` (step 1). -/
def pySlice {α : Type} (l : List α) (i j : Int) : List α :=
  (l.take (pyClamp l.length j)).drop (pyClamp l.length i)

/-- Python `str.lower()` mapped over ASCII characters. -/
def pyLower (s : List Char) : List Char :=
  s.map Char.toLower

/-- ASCII letter test used by the `str.title()` model. -/
def isAsciiAlpha (c : Char) : Bool :=
  ('a' ≤ c && c ≤ 'z') || ('A' ≤ c && c ≤ 'Z')

/-- Worker for `str.title()`: `prevAlpha` records whether the previous
character was a (cased) letter; a letter after a non-letter is
uppercased, any other letter is lowercased. -/
def pyTitleGo : Bool → List Char → List Char
  | _, [] => []
  | prevAlpha, c :: rest =>
    if isAsciiAlpha c then
      (if prevAlpha then c.toLower else c.toUpper) :: pyTitleGo true rest
    else
      c :: pyTitleGo false rest

/-- Python `str.title()` (ASCII model). -/
def pyTitle (s : List Char) : List Char :=
  pyTitleGo false s

/-- Model of `os.path.basename`: the part of the path after the last slash. -/
def pyBasename (s : List Char) : List Char :=
  (s.reverse.takeWhile (fun c => !(c == '/'))).reverse

/-! ## `src/data_management/transcript_manager.py` -/

/-- Source `truncate_text(text, max_tokens=4000)`:
```
words = text.split()
if len(words) > max_tokens:
    return " ".join(words[:max_tokens])
return text
``` -/
def truncate_text (text : List Char) (max_tokens : Nat) : List Char :=
  let words := pySplit text
  if max_tokens < words.length then joinSp (words.take max_tokens)
  else text

/-- The `while start < len(words)` loop of `split_text_into_chunks`,
with an explicit fuel bound on the number of iterations:
```
while start < len(words):
    end = start + max_words
    chunk_words = words[start:end]
    chunks.append(" ".join(chunk_words))
    if end >= len(words):
        break
    start += (max_words - overlap)
```
`start`, `max_words` and `overlap` are Python ints, hence `Int` here;
`none` means the loop ran longer than `fuel` iterations. -/
def chunkGo (words : List (List Char)) (max_words overlap : Int) :
    Nat → Int → List (List Char) → Option (List (List Char))
  | 0, _, _ => none
  | Nat.succ fuel, start, chunks =>
    if start < (words.length : Int) then
      let e := start + max_words
      let chunk_words := pySlice words start e
      let chunks' := chunks ++ [joinSp chunk_words]
      if (words.length : Int) ≤ e then some chunks'
      else chunkGo words max_words overlap fuel (start + (max_words - overlap)) chunks'
    else some chunks

/-- Source `split_text_into_chunks(text, max_words=300, overlap=50)`:
```
words = re.split(r'\s+', text)
if not words:
    return []
chunks = []
start = 0
<loop>
return chunks
```
The loop is `chunkGo` with the given fuel. -/
def split_text_into_chunks (text : List Char) (max_words overlap : Int)
    (fuel : Nat) : Option (List (List Char)) :=
  let words := reSplitWs text
  if words.isEmpty then some []
  else chunkGo words max_words overlap fuel 0 []

/-- Sentinel returned by `get_relevant_context_from_transcripts` when the
OpenAI client failed to initialize. -/
def errNoClient : List Char :=
  "Error: OpenAI client not initialized. Cannot generate embeddings.".data

/-- Sentinel returned by `get_relevant_context_from_transcripts` when the
ChromaDB collection is unavailable. -/
def errNoCollection : List Char :=
  "Error: ChromaDB collection not available.".data

/-- Source `all_retrieved_texts_set.add(doc)`: the Python `set` is modelled as a
first-insertion-order duplicate-free list (iteration order of a Python
set is unspecified; no claim below depends on the order). -/
def addDedup (acc : List (List Char)) (doc : List Char) : List (List Char) :=
  if acc.contains doc then acc else acc ++ [doc]

/-- The `for sub_query in related_queries` loop of
`get_relevant_context_from_transcripts`.  Each sub-query's interaction
with the embedding provider and ChromaDB is an effect; its outcome is
modelled as `Except e docs`: `Except.ok docs` is the `results` document
list of a successful iteration, `Except.error e` is an exception raised
inside the `try` block (OpenAI or otherwise), whose handler prints and
`continue`s, contributing nothing to the set. -/
def collectDocs (outcomes : List (Except (List Char) (List (List Char)))) :
    List (List Char) :=
  outcomes.foldl
    (fun acc r =>
      match r with
      | Except.ok docs => docs.foldl addDedup acc
      | Except.error _ => acc)
    []

/-- Source `get_relevant_context_from_transcripts(user_query, collection,
n_results_per_query=3, max_total_tokens=4000)`:
```
if not client:
    return "Error: OpenAI client not initialized. Cannot generate embeddings."
if not collection:
    return "Error: ChromaDB collection not available."
<sub-query loop filling all_retrieved_texts_set>
combined_context = " ".join(list(all_retrieved_texts_set))
return truncate_text(combined_context, max_tokens=max_total_tokens)
```
`clientOk`/`collectionOk` model the two guard conditions; `outcomes`
models the per-sub-query effects (see `collectDocs`).  The user query
itself only determines the sub-query texts sent to the provider, hence
appears only through `outcomes`. -/
def get_relevant_context_from_transcripts (clientOk collectionOk : Bool)
    (outcomes : List (Except (List Char) (List (List Char))))
    (max_total_tokens : Nat) : List Char :=
  if !clientOk then errNoClient
  else if !collectionOk then errNoCollection
  else truncate_text (joinSp (collectDocs outcomes)) max_total_tokens

/-! ## `src/data_management/compendium_manager.py` -/

/-- The base URL computed at module top level:
`GITHUB_BASE_URL = f"https://raw.githubusercontent.com/{GITHUB_USER}/{REPO_NAME}/{BRANCH_NAME}/{LOCAL_IMAGE_PATH_PREFIX}"`. -/
def GITHUB_BASE_URL : List Char :=
  "https://raw.githubusercontent.com/fredsmeds/Diaries-of-the-Upheaval-2.0/main/data/compendium/images/".data

/-- One raw entry object of `COMPENDIUM.json` (one value of the
`entries_dict`).  The fields used by `find_entry`,
`format_entry_for_agent` and `_load_all_data`; `image` is `none` when the
field is absent/NaN; `locations`/`drops` model a missing or non-list
field as `[]` (the code only renders them when
`isinstance(x, list) and x`, i.e. when the field is a non-empty list);
`properties` likewise models the `dict` as an association list. -/
structure RawEntry where
  name : List Char
  category : List Char
  description : List Char
  image : Option (List Char)
  locations : List (List Char)
  drops : List (List Char)
  properties : List (List Char × List Char)
deriving Repr, DecidableEq

/-- A row of `all_entries_df` after `_load_all_data` has added the
computed columns `search_name` (lower-cased `name`) and
`corrected_image_url` (GitHub base URL plus the basename of `image`). -/
structure Entry where
  name : List Char
  category : List Char
  description : List Char
  image : Option (List Char)
  locations : List (List Char)
  drops : List (List Char)
  properties : List (List Char × List Char)
  search_name : List Char
  corrected_image_url : Option (List Char)
deriving Repr, DecidableEq

/-- The per-entry work of `CompendiumManager._load_all_data`:
`search_name = name.lower()` and
`corrected_image_url = GITHUB_BASE_URL + os.path.basename(image)`
(`None` when `image` is missing). -/
def load_entry (r : RawEntry) : Entry :=
  { name := r.name
    category := r.category
    description := r.description
    image := r.image
    locations := r.locations
    drops := r.drops
    properties := r.properties
    search_name := pyLower r.name
    corrected_image_url := r.image.map (fun u => GITHUB_BASE_URL ++ pyBasename u) }

/-- Model of `CompendiumManager._load_all_data` over the list of raw entries (the
DataFrame rows, in file order). -/
def load_all_data (rs : List RawEntry) : List Entry :=
  rs.map load_entry

/-- A token of a compiled regular expression, for the fragment of Python
`re` patterns this development needs: a literal character or the `.`
wildcard. -/
inductive RTok where
  | lit (c : Char)
  | dot
deriving Repr, DecidableEq

/-- Modelled fragment of Python `re` pattern compilation, as invoked by
`pandas.Series.str.contains(search_query)` (which treats the query as a
regular expression, `regex=True` being the default).  A pattern made of
plain literal characters and `.` compiles to its token list; a pattern
containing any other regex metacharacter is modelled as a compile error
(`re.error`).  This is conservative in general but exact for every
pattern used in the theorems below: a lone `(` raises
`re.error: missing ), unterminated subpattern` in Python, and `.` is the
any-character wildcard. -/
def compileRegex : List Char → Except Unit (List RTok)
  | [] => Except.ok []
  | c :: rest =>
    if c == '.' then
      match compileRegex rest with
      | Except.ok ts => Except.ok (RTok.dot :: ts)
      | Except.error e => Except.error e
    else if c ∈ ['^', '$', '*', '+', '?', '{', '}', '[', ']', '\\', '|', '(', ')'] then
      Except.error ()
    else
      match compileRegex rest with
      | Except.ok ts => Except.ok (RTok.lit c :: ts)
      | Except.error e => Except.error e

/-- Match a compiled pattern against a prefix of `s` (Python `re.match`
at one position): `.` matches any character except newline. -/
def matchTokens : List RTok → List Char → Bool
  | [], _ => true
  | RTok.lit c :: ts, d :: ds => c == d && matchTokens ts ds
  | RTok.dot :: ts, d :: ds => !(d == '\n') && matchTokens ts ds
  | _ :: _, [] => false

/-- Python `re.search`: the pattern matches at some position of `s`.
`pandas.Series.str.contains` is `re.search` applied to each element. -/
def regexSearch (ts : List RTok) (s : List Char) : Bool :=
  s.tails.any (fun t => matchTokens ts t)

/-- Source `CompendiumManager.find_entry(query)`:
```
search_query = query.lower().strip()
exact_match = df[df['search_name'] == search_query]
if not exact_match.empty: return exact_match.iloc[0].to_dict()
partial_match = df[df['search_name'].str.contains(search_query, na=False)]
if not partial_match.empty: return partial_match.iloc[0].to_dict()
return None
```
`.iloc[0]` takes the first row in order, hence `List.find?`.
`str.contains` interprets `search_query` as a regex; an invalid pattern
raises `re.error` out of `find_entry`, modelled by `Except.error ()`. -/
def find_entryE (entries : List Entry) (query : List Char) :
    Except Unit (Option Entry) :=
  let search_query := pyStrip (pyLower query)
  match entries.find? (fun e => e.search_name == search_query) with
  | some e => Except.ok (some e)
  | none =>
    match compileRegex search_query with
    | Except.error e => Except.error e
    | Except.ok ts =>
      Except.ok (entries.find? (fun e => regexSearch ts e.search_name))

/-- The fixed text `format_entry_for_agent` returns for a missing
entry. -/
def entryNotFoundMsg : List Char :=
  "I could not find any information on that subject in the compendium.".data

/-- Source `format_entry_for_agent(entry)`: the not-found text for `None`,
otherwise
`f"Compendium Entry: {name} (Category: {category})\nDescription: {description}"`
followed by the `Common Locations`/`Drops`/`Properties` lines, each only
when the corresponding field is a non-empty list/dict.  For `properties`,
keys are rendered `key.replace('_', ' ').title()`. -/
def format_entry_for_agent (entry : Option Entry) : List Char :=
  match entry with
  | none => entryNotFoundMsg
  | some e =>
    let nm := pyTitle e.name
    let cat := pyTitle e.category
    let response :=
      "Compendium Entry: ".data ++ nm ++ " (Category: ".data ++ cat ++
        ")".data ++ "\nDescription: ".data ++ e.description
    let response :=
      if e.locations.isEmpty then response
      else response ++ "\nCommon Locations: ".data ++ joinWith ", ".data e.locations
    let response :=
      if e.drops.isEmpty then response
      else response ++ "\nDrops: ".data ++ joinWith ", ".data e.drops
    let response :=
      if e.properties.isEmpty then response
      else response ++ "\nProperties: ".data ++
        joinWith ", ".data
          (e.properties.map (fun p =>
            pyTitle (p.1.map (fun c => if c == '_' then ' ' else c)) ++
              ": ".data ++ p.2))
    response

/-! ## `src/data_management/map_manager.py` -/

/-- One element of `MapManager.locations_db` as built by
`_load_all_locations`: a dict with `name`, `category`, `layer`, `coords`
and `icon`.  `coords` is `none` when the marker has no/empty coords (the
code guards with `if coords and ...`); the repository's marker
coordinates are integral game coordinates, modelled as `Int × Int`
(`coords[0]`, `coords[1]`). -/
structure Location where
  name : List Char
  category : List Char
  layer : List Char
  coords : Option (Int × Int)
  icon : List Char
deriving Repr, DecidableEq

/-- One value of the `region_bounds` dict. -/
structure RegionBounds where
  x_min : Int
  x_max : Int
  y_min : Int
  y_max : Int
  layer : List Char
deriving Repr, DecidableEq

/-- The `region_bounds` dict set in `MapManager.__init__`, as an
association list in source order. -/
def region_bounds : List (List Char × RegionBounds) :=
  [ ("lanayru".data, ⟨2800, 4700, -1200, 1500, "surface".data⟩),
    ("central hyrule".data, ⟨-1500, 1500, -1500, 1500, "surface".data⟩),
    ("hyrule castle".data, ⟨-500, 200, 500, 1300, "surface".data⟩),
    ("hebra".data, ⟨-4500, -1500, 1500, 4000, "surface".data⟩),
    ("gerudo".data, ⟨-4800, -1800, -3800, -1500, "surface".data⟩),
    ("faron".data, ⟨0, 3000, -4000, -2000, "surface".data⟩),
    ("necluda".data, ⟨1500, 4000, -3000, -1000, "surface".data⟩),
    ("akkala".data, ⟨3000, 4800, 1500, 4000, "surface".data⟩),
    ("eldin".data, ⟨1000, 3000, 1500, 4000, "surface".data⟩) ]

/-- The category normalization applied by `find_locations_in_region` to
both the query category and each location's category:
`s.lower().strip().replace(' ', '').replace('s', '')` — note that
`str.replace` removes every occurrence of `' '` and of `'s'`, not just
trailing ones. -/
def codeCategoryNorm (s : List Char) : List Char :=
  ((pyStrip (pyLower s)).filter (fun c => !(c == ' '))).filter (fun c => !(c == 's'))

/-- Source `MapManager.find_locations_in_region(category, region)`:
```
search_category = category.lower().strip().replace(' ', '').replace('s', '')
search_region = region.lower().strip()
bounds = self.region_bounds.get(search_region)
if not bounds: return []
found_locations = []
for loc in self.locations_db:
    loc_category = loc["category"].lower().strip().replace(' ', '').replace('s', '')
    if search_category in loc_category and loc["layer"] == bounds["layer"]:
        coords = loc.get("coords")
        if coords and (x_min <= coords[0] <= x_max) and (y_min <= coords[1] <= y_max):
            found_locations.append(loc)
return found_locations
```
The append loop is a filter of `locations_db` in order. -/
def find_locations_in_region (locations_db : List Location)
    (category region : List Char) : List Location :=
  let search_category := codeCategoryNorm category
  let search_region := pyStrip (pyLower region)
  match (region_bounds.find? (fun p => p.1 == search_region)).map Prod.snd with
  | none => []
  | some bounds =>
    locations_db.filter (fun loc =>
      let loc_category := codeCategoryNorm loc.category
      pySubstr search_category loc_category && loc.layer == bounds.layer &&
        match loc.coords with
        | some c =>
          decide (bounds.x_min ≤ c.1) && decide (c.1 ≤ bounds.x_max) &&
            decide (bounds.y_min ≤ c.2) && decide (c.2 ≤ bounds.y_max)
        | none => false)

/-- The category normalization as the specification words it: case-folded,
spaces stripped, and a single *trailing* `"s"` stripped (to absorb
singular/plural variants).  Used to state the claim that
`find_locations_in_region` matches categories under this normalization;
compare `codeCategoryNorm`. -/
def specCategoryNorm (s : List Char) : List Char :=
  let t := (pyLower s).filter (fun c => !(c == ' '))
  match t.getLast? with
  | some c => if c == 's' then t.dropLast else t
  | none => t

/-- The claim-side membership predicate for `byRegion(category, region)`:
category equal to the query category after `specCategoryNorm`, equal
layer, and coordinates inside the region's bounding box. -/
def specRegionPred (category : List Char) (bounds : RegionBounds)
    (loc : Location) : Bool :=
  specCategoryNorm loc.category == specCategoryNorm category &&
    loc.layer == bounds.layer &&
    match loc.coords with
    | some c =>
      decide (bounds.x_min ≤ c.1) && decide (c.1 ≤ bounds.x_max) &&
        decide (bounds.y_min ≤ c.2) && decide (c.2 ≤ bounds.y_max)
    | none => false

/-- Field `self.map_image_path` (constructor default `"assets/maps"`). -/
def map_image_path : List Char := "assets/maps".data

/-- Source `MapManager.generate_map_image(locations)`:
```
if not locations: return None
layer = locations[0]['layer']
base_map_path = os.path.join(self.map_image_path, f"{layer}.jpg")
if not os.path.exists(base_map_path): return None
... compositing ...
with tempfile.NamedTemporaryFile(delete=False, suffix=".png") as temp_file:
    combined_image.save(temp_file, format='PNG')
    return temp_file.name
```
The filesystem is an effect: `pathExists` models `os.path.exists`, and
`tempName` is the fresh file name chosen by `tempfile.NamedTemporaryFile`
for this call (a name that did not exist before, different on every
call).  The pixel compositing manipulates only image contents, never the
output path, and is not modelled; the function's result is the path it
returns. -/
def generate_map_image (pathExists : List Char → Bool)
    (locations : List Location) (tempName : List Char) :
    Option (List Char) :=
  match locations with
  | [] => none
  | loc0 :: _ =>
    let base_map_path := map_image_path ++ ('/' :: (loc0.layer ++ ".jpg".data))
    if pathExists base_map_path then some tempName
    else none

/-! ## Concrete fixtures used by witnesses and counterexamples -/

/-- The entity record of the specification's end-to-end scenario:
`{name: "Bokoblin", category: "monster", description: "A common enemy.",
image: "http://x/bok.png"}`. -/
def bokRaw : RawEntry :=
  { name := "Bokoblin".data
    category := "monster".data
    description := "A common enemy.".data
    image := some "http://x/bok.png".data
    locations := []
    drops := []
    properties := [] }

/-- A catalog containing exactly the scenario record, after loading. -/
def bokCatalog : List Entry := load_all_data [bokRaw]

/-- A location whose category is the (real, in-data) plural category
`"Bosses"`, placed inside the eldin bounding box. -/
def bossLoc : Location :=
  { name := "Demon King".data
    category := "Bosses".data
    layer := "surface".data
    coords := some (2000, 2000)
    icon := "boss.png".data }

/-- A surface location of category `"monster"` at game coordinates
`(3000, 0)` (the point of the specification's region-filter scenario). -/
def monsterLoc : Location :=
  { name := "Bokoblin Camp".data
    category := "monster".data
    layer := "surface".data
    coords := some (3000, 0)
    icon := "monster.png".data }

/-! ## Helper lemmas: the whitespace-splitting model -/

/-- Scanning a whitespace-free block accumulates it onto `cur`. -/
theorem splitWsGo_word (w : List Char) :
    ∀ (rest cur : List Char), (∀ c ∈ w, isPySpace c = false) →
      splitWsGo false (w ++ rest) cur = splitWsGo false rest (cur ++ w) := by
  induction w with
  | nil => intro rest cur _; simp
  | cons c w ih =>
    intro rest cur h
    have hc : isPySpace c = false := h c (by simp)
    rw [List.cons_append, splitWsGo, if_neg (by simp [hc]),
      ih rest (cur ++ [c]) (fun d hd => h d (by simp [hd]))]
    simp

/-- In skip mode, a non-whitespace head behaves as in scan mode with an
empty accumulator. -/
theorem splitWsGo_skip_exit (c : Char) (rest : List Char)
    (hc : isPySpace c = false) :
    splitWsGo true (c :: rest) [] = splitWsGo false (c :: rest) [] := by
  rw [splitWsGo, if_neg (by simp [hc]), splitWsGo, if_neg (by simp [hc])]

/-- The joined form of a good word list starts with a non-whitespace
character, so skip mode and scan mode agree on it. -/
theorem splitWsGo_skip_joinSp (u : List Char) (t : List (List Char))
    (hu : u ≠ []) (hc : ∀ c ∈ u, isPySpace c = false) :
    splitWsGo true (joinSp (u :: t)) [] = splitWsGo false (joinSp (u :: t)) [] := by
  cases u with
  | nil => exact absurd rfl hu
  | cons c u =>
    have h0 : isPySpace c = false := hc c (by simp)
    cases t with
    | nil =>
      have : joinSp [c :: u] = c :: u := by simp [joinSp, joinWith]
      rw [this, splitWsGo_skip_exit c u h0]
    | cons v t =>
      have : joinSp ((c :: u) :: v :: t) = c :: (u ++ ' ' :: joinSp (v :: t)) := by
        simp [joinSp, joinWith]
      rw [this, splitWsGo_skip_exit _ _ h0]

/-- Splitting the space-joined form of a list of non-empty
whitespace-free words recovers the words. -/
theorem splitWsGo_joinSp (t : List (List Char)) :
    ∀ (w cur : List Char), (w ≠ [] ∧ ∀ c ∈ w, isPySpace c = false) →
      (∀ u ∈ t, u ≠ [] ∧ ∀ c ∈ u, isPySpace c = false) →
      splitWsGo false (joinSp (w :: t)) cur = (cur ++ w) :: t := by
  induction t with
  | nil =>
    intro w cur hw _
    have : joinSp [w] = w ++ [] := by simp [joinSp, joinWith]
    rw [this, splitWsGo_word w [] cur hw.2, splitWsGo]
  | cons u t ih =>
    intro w cur hw ht
    have hu := ht u (by simp)
    have hrest : ∀ v ∈ t, v ≠ [] ∧ ∀ c ∈ v, isPySpace c = false :=
      fun v hv => ht v (by simp [hv])
    have hJ : joinSp (w :: u :: t) = w ++ (' ' :: joinSp (u :: t)) := by
      simp [joinSp, joinWith]
    rw [hJ, splitWsGo_word w _ cur hw.2, splitWsGo,
      if_pos (by simp [isPySpace]), if_neg (by simp),
      splitWsGo_skip_joinSp u t hu.1 hu.2, ih u [] hu hrest]
    simp

/-- Model of `re.split` is a left inverse of `" ".join` on non-empty
lists of non-empty whitespace-free words. -/
theorem reSplitWs_joinSp (ws : List (List Char)) (hne : ws ≠ [])
    (h : ∀ w ∈ ws, w ≠ [] ∧ ∀ c ∈ w, isPySpace c = false) :
    reSplitWs (joinSp ws) = ws := by
  cases ws with
  | nil => exact absurd rfl hne
  | cons w t =>
    unfold reSplitWs
    rw [splitWsGo_joinSp t w [] (h w (by simp)) (fun u hu => h u (by simp [hu]))]
    simp

/-- Model of `str.split()` is a left inverse of `" ".join` on lists of
non-empty whitespace-free words (including the empty list). -/
theorem pySplit_joinSp (ws : List (List Char))
    (h : ∀ w ∈ ws, w ≠ [] ∧ ∀ c ∈ w, isPySpace c = false) :
    pySplit (joinSp ws) = ws := by
  cases ws with
  | nil => rfl
  | cons w t =>
    unfold pySplit
    rw [splitWsGo_joinSp t w [] (h w (by simp)) (fun u hu => h u (by simp [hu]))]
    refine List.filter_eq_self.mpr ?_
    intro u hu
    have := (h u (by simpa using hu)).1
    simp [List.isEmpty_iff, this]

/-- Every word produced by the `re.split` scanner is whitespace-free
(provided the accumulator is). -/
theorem splitWsGo_no_space (t : List Char) :
    ∀ (skipping : Bool) (cur : List Char),
      (∀ c ∈ cur, isPySpace c = false) →
      ∀ w ∈ splitWsGo skipping t cur, ∀ c ∈ w, isPySpace c = false := by
  induction t with
  | nil =>
    intro skipping cur hcur w hw
    rw [splitWsGo] at hw
    simp at hw
    subst hw; exact hcur
  | cons c rest ih =>
    intro skipping cur hcur w hw
    by_cases hc : isPySpace c = true
    · rw [splitWsGo, if_pos (by simp [hc])] at hw
      cases skipping with
      | true => simp at hw; exact ih true [] (by simp) w hw
      | false =>
        rw [if_neg (by simp)] at hw
        rcases List.mem_cons.mp hw with h | h
        · subst h; exact hcur
        · exact ih true [] (by simp) w h
    · rw [splitWsGo, if_neg (by simpa using hc)] at hw
      refine ih false (cur ++ [c]) ?_ w hw
      intro d hd
      rcases List.mem_append.mp hd with h | h
      · exact hcur d h
      · simp at h; subst h; simpa using hc

/-- Every word of `pySplit t` is non-empty and whitespace-free. -/
theorem pySplit_good (t : List Char) :
    ∀ w ∈ pySplit t, w ≠ [] ∧ ∀ c ∈ w, isPySpace c = false := by
  intro w hw
  unfold pySplit at hw
  have h1 := List.mem_filter.mp hw
  refine ⟨?_, splitWsGo_no_space t false [] (by simp) w h1.1⟩
  simpa [List.isEmpty_iff] using h1.2

/-- The output of `truncate_text` has at most `max_tokens` words. -/
theorem length_pySplit_truncate (t : List Char) (b : Nat) :
    (pySplit (truncate_text t b)).length ≤ b := by
  simp only [truncate_text]
  split_ifs with h
  · have hgood : ∀ w ∈ (pySplit t).take b, w ≠ [] ∧ ∀ c ∈ w, isPySpace c = false :=
      fun w hw => pySplit_good t w (List.mem_of_mem_take hw)
    rw [pySplit_joinSp _ hgood, List.length_take]
    omega
  · omega

/-- Python slicing with non-negative in-range start and a start-plus-count
stop is drop-then-take. -/
theorem pySlice_natCast {α : Type} (l : List α) (a m : Nat) (ha : a ≤ l.length) :
    pySlice l (a : Int) ((a : Int) + (m : Int)) = (l.drop a).take m := by
  unfold pySlice pyClamp
  rw [if_neg (by omega), if_neg (by omega)]
  have e1 : (a : Int).toNat = a := Int.toNat_natCast a
  have e2 : ((a : Int) + (m : Int)).toNat = a + m := by omega
  rw [e1, e2, min_eq_left ha, List.drop_take]
  refine List.take_eq_take.mpr ?_
  rw [List.length_drop]
  omega

/-- Running the chunk loop from an in-range start with enough fuel
produces exactly the arithmetic-progression windows of width `max_words`
and stride `max_words - overlap`, together with the loop's stopping
facts. -/
theorem chunkGo_run (ws : List (List Char)) (m o : Nat) (ho : o < m) :
    ∀ (fuel start : Nat) (acc : List (List Char)),
      start < ws.length → ws.length ≤ start + fuel →
      ∃ k, 0 < k ∧
        chunkGo ws (m : Int) (o : Int) fuel (start : Int) acc =
          some (acc ++ (List.range k).map
            (fun j => joinSp ((ws.drop (start + j * (m - o))).take m))) ∧
        ws.length ≤ start + (k - 1) * (m - o) + m ∧
        (∀ j, j + 1 < k → start + j * (m - o) + m < ws.length) ∧
        (∀ j, j < k → start + j * (m - o) < ws.length) := by
  intro fuel
  induction fuel with
  | zero => intro start acc h1 h2; omega
  | succ fuel ih =>
    intro start acc h1 h2
    have hlt : (start : Int) < (ws.length : Int) := by exact_mod_cast h1
    by_cases hbr : ws.length ≤ start + m
    · refine ⟨1, Nat.one_pos, ?_, by simpa using hbr,
        by intro j hj; omega, ?_⟩
      · simp only [chunkGo, if_pos hlt]
        rw [if_pos (by omega), pySlice_natCast ws start m (le_of_lt h1)]
        rw [show List.range 1 = [0] from rfl]
        simp
      · intro j hj
        have : j = 0 := by omega
        subst this; simpa using h1
    · push_neg at hbr
      have hcast : (start : Int) + ((m : Int) - (o : Int)) =
          ((start + (m - o) : Nat) : Int) := by
        push_cast [Nat.cast_sub (le_of_lt ho)]; ring
      obtain ⟨k', hk', heq, hlast, hmid, hstarts⟩ :=
        ih (start + (m - o)) (acc ++ [joinSp ((ws.drop start).take m)])
          (by omega) (by omega)
      have hsucc : ∀ j : Nat, (j + 1) * (m - o) = j * (m - o) + (m - o) :=
        fun j => Nat.succ_mul j (m - o)
      have hk'mul : k' * (m - o) = (k' - 1) * (m - o) + (m - o) := by
        cases k' with
        | zero => omega
        | succ k'' => simpa using Nat.succ_mul k'' (m - o)
      refine ⟨k' + 1, by omega, ?_, ?_, ?_, ?_⟩
      · simp only [chunkGo, if_pos hlt]
        rw [if_neg (by omega), pySlice_natCast ws start m (le_of_lt h1),
          hcast, heq, List.range_succ_eq_map]
        simp only [List.map_cons, List.map_map]
        rw [List.append_assoc, List.singleton_append]
        congr 1
        rw [show start + 0 * (m - o) = start from by simp]
        refine congrArg (fun t => acc ++ t) ?_
        refine List.cons_eq_cons.mpr ⟨rfl, ?_⟩
        refine List.map_congr_left ?_
        intro j _
        simp only [Function.comp_apply, Nat.succ_eq_add_one]
        have : start + (m - o) + j * (m - o) = start + (j + 1) * (m - o) := by
          rw [hsucc]; ring
        rw [this]
      · have : (k' + 1 - 1) * (m - o) = k' * (m - o) := by simp
        rw [this, hk'mul]
        omega
      · intro j hj
        cases j with
        | zero => simpa using hbr
        | succ j' =>
          have h := hmid j' (by omega)
          rw [hsucc j']
          omega
      · intro j hj
        cases j with
        | zero => simpa using h1
        | succ j' =>
          have h := hstarts j' (by omega)
          rw [hsucc j']
          omega

/-! ## Claim theorems -/

/-- C1: for any non-empty list of non-empty whitespace-free words joined
into a text, `split_text_into_chunks` with `overlap < maxWords` (run with
fuel `N + 1`, which the loop never exhausts) returns exactly the joined
windows `ws[i*(m-o) .. i*(m-o)+m)`; every word index lies in some window;
every window except possibly the last has exactly `m` words (and all have
at most `m`); and each pair of consecutive chunks shares exactly `o`
words (the last `o` words of one are the first `o` words of the next). -/
theorem chunk_coverage_and_overlap (ws : List (List Char)) (m o : Nat)
    (hne : ws ≠ [])
    (hgood : ∀ w ∈ ws, w ≠ [] ∧ ∀ c ∈ w, isPySpace c = false)
    (ho : o < m) :
    ∃ K, 0 < K ∧
      split_text_into_chunks (joinSp ws) (m : Int) (o : Int) (ws.length + 1) =
        some ((List.range K).map
          (fun i => joinSp ((ws.drop (i * (m - o))).take m))) ∧
      (∀ i, i < K → pySplit (joinSp ((ws.drop (i * (m - o))).take m)) =
        (ws.drop (i * (m - o))).take m) ∧
      (∀ j, j < ws.length → ∃ i, i < K ∧ i * (m - o) ≤ j ∧ j < i * (m - o) + m) ∧
      (∀ i, i + 1 < K → ((ws.drop (i * (m - o))).take m).length = m) ∧
      (∀ i, i < K → ((ws.drop (i * (m - o))).take m).length ≤ m) ∧
      (∀ i, i + 1 < K →
        ((ws.drop (i * (m - o))).take m).drop (m - o) =
          ((ws.drop ((i + 1) * (m - o))).take m).take o ∧
        (((ws.drop (i * (m - o))).take m).drop (m - o)).length = o) := by
  have hlen : 0 < ws.length := List.length_pos.mpr hne
  obtain ⟨K, hK, heq, hlast, hmid, hstarts⟩ :=
    chunkGo_run ws m o ho (ws.length + 1) 0 [] hlen (by omega)
  refine ⟨K, hK, ?_, ?_, ?_, ?_, ?_, ?_⟩
  · simp only [split_text_into_chunks]
    rw [reSplitWs_joinSp ws hne hgood,
      if_neg (by simp [List.isEmpty_iff, hne])]
    simpa using heq
  · intro i _
    refine pySplit_joinSp _ ?_
    intro w hw
    exact hgood w (List.mem_of_mem_drop (List.mem_of_mem_take hw))
  · intro j hj
    set st := m - o with hst
    have hst1 : 1 ≤ st := by omega
    have hdm := Nat.div_add_mod j st
    have hmod : j % st < st := Nat.mod_lt j (by omega)
    have hcomm : (j / st) * st = st * (j / st) := Nat.mul_comm _ _
    by_cases hq : j / st < K
    · exact ⟨j / st, hq, by omega, by omega⟩
    · push_neg at hq
      have h1 : K - 1 ≤ j / st := by omega
      have h2 : (K - 1) * st ≤ (j / st) * st := Nat.mul_le_mul_right st h1
      have h3 : (j / st) * st ≤ j := Nat.div_mul_le_self j st
      refine ⟨K - 1, by omega, by omega, by omega⟩
  · intro i hi
    have h := hmid i (by omega)
    rw [List.length_take, List.length_drop]
    omega
  · intro i _
    rw [List.length_take]
    omega
  · intro i hi
    have hfull := hmid i (by omega)
    have hsucc : (i + 1) * (m - o) = i * (m - o) + (m - o) := Nat.succ_mul i (m - o)
    constructor
    · rw [List.drop_take m (m - o) (ws.drop (i * (m - o))), List.drop_drop,
        show m - (m - o) = o from by omega,
        show i * (m - o) + (m - o) = (i + 1) * (m - o) from by rw [hsucc],
        List.take_take, min_eq_left (by omega : o ≤ m)]
    · rw [List.length_drop, List.length_take, List.length_drop]
      omega

/-- Witness for `chunk_coverage_and_overlap`: three one-letter words,
`maxWords = 2`, `overlap = 1`. -/
theorem chunk_coverage_and_overlap_witness :
    ∃ K, 0 < K ∧
      split_text_into_chunks (joinSp [['a'], ['b'], ['c']])
          ((2 : Nat) : Int) ((1 : Nat) : Int) ([['a'], ['b'], ['c']].length + 1) =
        some ((List.range K).map
          (fun i => joinSp (([['a'], ['b'], ['c']].drop (i * (2 - 1))).take 2))) := by
  obtain ⟨K, h1, h2, _⟩ :=
    chunk_coverage_and_overlap [['a'], ['b'], ['c']] 2 1 (by decide)
      (by decide) (by decide)
  exact ⟨K, h1, h2⟩

/-- C6: on empty input, `re.split(r'\s+', "")` is `['']`, so the guard
`if not words` never fires and the function returns one chunk — the
empty string — rather than the empty sequence the specification (and the
dead guard in the code itself) promises. -/
theorem empty_text_yields_one_empty_chunk :
    split_text_into_chunks [] 300 50 1 = some [[]] ∧
    ([[]] : List (List Char)) ≠ [] :=
  ⟨rfl, by decide⟩

/-- C7: with `max_words = overlap = 1` on the two-word text `"a b"`, the
loop increment `max_words - overlap` is zero, `start` never advances, and
the loop exceeds every fuel bound: the call never terminates instead of
treating `maxWords <= overlap` as an error. -/
theorem chunking_no_progress_diverges :
    ∀ fuel : Nat, split_text_into_chunks "a b".data 1 1 fuel = none := by
  have haux : ∀ (fuel : Nat) (acc : List (List Char)),
      chunkGo [['a'], ['b']] 1 1 fuel 0 acc = none := by
    intro fuel
    induction fuel with
    | zero => intro acc; rfl
    | succ fuel ih => intro acc; exact ih (acc ++ [joinSp (pySlice [['a'], ['b']] 0 1)])
  intro fuel
  exact haux fuel []

/-- C2: the retrieval result never exceeds the word budget, for any
client/collection state and any sequence of sub-query outcomes, provided
the budget is at least the 8 words of the longest sentinel error string
(the default budget is 4000). -/
theorem retrieval_word_budget_bound (clientOk collectionOk : Bool)
    (outcomes : List (Except (List Char) (List (List Char))))
    (budget : Nat) (hb : 8 ≤ budget) :
    (pySplit (get_relevant_context_from_transcripts clientOk collectionOk
        outcomes budget)).length ≤ budget := by
  unfold get_relevant_context_from_transcripts
  cases clientOk with
  | false =>
    have h : (pySplit errNoClient).length = 8 := rfl
    simpa [h] using hb
  | true =>
    cases collectionOk with
    | false =>
      have h : (pySplit errNoCollection).length = 5 := rfl
      show (pySplit errNoCollection).length ≤ budget
      omega
    | true =>
      simpa using length_pySplit_truncate (joinSp (collectDocs outcomes)) budget

/-- Witness for `retrieval_word_budget_bound` at the default budget. -/
theorem retrieval_word_budget_bound_witness :
    8 ≤ 4000 ∧
    (pySplit (get_relevant_context_from_transcripts true true
        [Except.ok ["lore".data]] 4000)).length ≤ 4000 :=
  ⟨by decide,
    retrieval_word_budget_bound true true [Except.ok ["lore".data]] 4000 (by decide)⟩

/-- C8: an exception inside one sub-query iteration is caught and
skipped — the result is the same as if that sub-query were absent, so the
other sub-queries' documents are still collected and returned — and an
unavailable collection produces the sentinel error string instead of an
exception escaping. -/
theorem subquery_failure_isolated_and_collection_sentinel :
    (∀ (pre post : List (Except (List Char) (List (List Char))))
        (err : List Char) (budget : Nat),
      get_relevant_context_from_transcripts true true
          (pre ++ Except.error err :: post) budget =
        get_relevant_context_from_transcripts true true (pre ++ post) budget) ∧
    (∀ (outcomes : List (Except (List Char) (List (List Char)))) (budget : Nat),
      get_relevant_context_from_transcripts true false outcomes budget =
        errNoCollection) := by
  constructor
  · intro pre post err budget
    have hdocs : collectDocs (pre ++ Except.error err :: post) =
        collectDocs (pre ++ post) := by
      unfold collectDocs
      rw [List.foldl_append, List.foldl_append, List.foldl_cons]
    show truncate_text (joinSp (collectDocs (pre ++ Except.error err :: post))) budget =
      truncate_text (joinSp (collectDocs (pre ++ post))) budget
    rw [hdocs]
  · intro outcomes budget
    rfl

/-- C3: `find_entry` depends on the query only through
`query.lower().strip()`, so any two queries equal after lower-casing and
stripping resolve identically; in particular `"Bokoblin"`, `"bokoblin"`
and `" BOKOBLIN "` agree on every catalog. -/
theorem find_entry_normalization_determinism :
    (∀ entries : List Entry,
      find_entryE entries "Bokoblin".data = find_entryE entries "bokoblin".data ∧
      find_entryE entries "bokoblin".data = find_entryE entries " BOKOBLIN ".data) ∧
    (∀ (entries : List Entry) (q1 q2 : List Char),
      pyStrip (pyLower q1) = pyStrip (pyLower q2) →
      find_entryE entries q1 = find_entryE entries q2) := by
  have key : ∀ (entries : List Entry) (q1 q2 : List Char),
      pyStrip (pyLower q1) = pyStrip (pyLower q2) →
      find_entryE entries q1 = find_entryE entries q2 := by
    intro entries q1 q2 h
    unfold find_entryE
    rw [h]
  exact ⟨fun entries =>
    ⟨key entries _ _ (by decide), key entries _ _ (by decide)⟩, key⟩

/-- Witness for `find_entry_normalization_determinism` on the loaded
one-record catalog. -/
theorem find_entry_normalization_determinism_witness :
    find_entryE bokCatalog "Bokoblin".data = find_entryE bokCatalog " BOKOBLIN ".data ∧
    find_entryE bokCatalog "Bokoblin".data = Except.ok (some (load_entry bokRaw)) :=
  ⟨find_entry_normalization_determinism.2 bokCatalog _ _ (by decide), rfl⟩

/-- C5 counterexample: on the scenario catalog, `resolve("bokoblin")`
does return the record, but the formatted agent text contains no
occurrence of the record's image URL `"http://x/bok.png"` — the format
step emits no image reference at all, contradicting the claimed image
reference equal to that URL. -/
theorem format_entry_no_image_reference :
    find_entryE bokCatalog "bokoblin".data = Except.ok (some (load_entry bokRaw)) ∧
    pySubstr "http://x/bok.png".data
      (format_entry_for_agent (some (load_entry bokRaw))) = false :=
  ⟨rfl, by decide⟩

/-- C5 amended: `resolve("bokoblin")` returns the loaded record;
`format` returns text containing `"Bokoblin"` and `"A common enemy."`
but no image reference (no `"http://"` occurs in it); the record itself
still carries `image = "http://x/bok.png"`, and the loader's
`corrected_image_url` rewrites it to the GitHub raw URL of `bok.png`;
a missing record yields the fixed not-found text, which likewise
contains no image reference. -/
theorem compendium_scenario_amended :
    find_entryE bokCatalog "bokoblin".data = Except.ok (some (load_entry bokRaw)) ∧
    pySubstr "Bokoblin".data (format_entry_for_agent (some (load_entry bokRaw))) = true ∧
    pySubstr "A common enemy.".data
      (format_entry_for_agent (some (load_entry bokRaw))) = true ∧
    pySubstr "http://".data (format_entry_for_agent (some (load_entry bokRaw))) = false ∧
    (load_entry bokRaw).image = some "http://x/bok.png".data ∧
    (load_entry bokRaw).corrected_image_url =
      some (GITHUB_BASE_URL ++ "bok.png".data) ∧
    format_entry_for_agent none = entryNotFoundMsg ∧
    pySubstr "http://".data (format_entry_for_agent none) = false :=
  ⟨rfl, by decide, by decide, by decide, rfl, rfl, rfl, by decide⟩

/-- C10: the partial-match phase hands the normalized query to a
regex-based contains test, so `find_entry("(")` raises `re.error`
(modelled `Except.error`), and `find_entry(".")` returns the Bokoblin
record even though its name contains no literal dot (the pattern `.`
matches any character). -/
theorem find_entry_regex_metacharacter_leak :
    find_entryE bokCatalog "(".data = Except.error () ∧
    find_entryE bokCatalog ".".data = Except.ok (some (load_entry bokRaw)) ∧
    pySubstr ".".data (load_entry bokRaw).search_name = false :=
  ⟨rfl, rfl, by decide⟩

/-- C4 counterexample: for query category `"boss"` and region `"eldin"`,
the code returns the in-box location with category `"Bosses"`, but the
set of locations whose category *matches* `"boss"` under the
specification's normalization (case-folded, spaces stripped, trailing
`"s"` stripped) is empty: `"boss"` normalizes to `"bos"` while
`"Bosses"` normalizes to `"bosse"` — the code strips every `'s'` and
tests substring containment instead. -/
theorem region_filter_counterexample :
    find_locations_in_region [bossLoc] "boss".data "eldin".data = [bossLoc] ∧
    (region_bounds.find? (fun p => p.1 == "eldin".data)).map Prod.snd =
      some ⟨1000, 3000, 1500, 4000, "surface".data⟩ ∧
    [bossLoc].filter
      (specRegionPred "boss".data ⟨1000, 3000, 1500, 4000, "surface".data⟩) = [] ∧
    specCategoryNorm "boss".data ≠ specCategoryNorm "Bosses".data :=
  ⟨rfl, rfl, rfl, by decide⟩

/-- C4 amended: membership in `find_locations_in_region` is exactly:
the location is in the database, the region resolves in the bounds
table, the *code-normalized* query category (all spaces and all `'s'`
characters removed after case-folding) is a substring of the
code-normalized location category, the layers are equal, and the
coordinates lie in the bounding box.  In particular the surface
`"monster"` location at `(3000, 0)` is excluded for `"eldin"`, whose box
does not contain that point. -/
theorem region_filter_membership :
    (∀ (db : List Location) (category region : List Char) (loc : Location),
      loc ∈ find_locations_in_region db category region ↔
        loc ∈ db ∧
        ∃ b : RegionBounds,
          (region_bounds.find? (fun p => p.1 == pyStrip (pyLower region))).map
              Prod.snd = some b ∧
          pySubstr (codeCategoryNorm category) (codeCategoryNorm loc.category) = true ∧
          loc.layer = b.layer ∧
          ∃ x y, loc.coords = some (x, y) ∧
            b.x_min ≤ x ∧ x ≤ b.x_max ∧ b.y_min ≤ y ∧ y ≤ b.y_max) ∧
    find_locations_in_region [monsterLoc] "monster".data "eldin".data = [] := by
  constructor
  · intro db category region loc
    unfold find_locations_in_region
    cases h : (region_bounds.find? (fun p => p.1 == pyStrip (pyLower region))).map
        Prod.snd with
    | none => simp [h]
    | some b =>
      simp only [h]
      rw [List.mem_filter]
      constructor
      · rintro ⟨hdb, hpred⟩
        refine ⟨hdb, b, rfl, ?_⟩
        cases hc : loc.coords with
        | none => rw [hc] at hpred; simp at hpred
        | some c =>
          rw [hc] at hpred
          simp only [Bool.and_eq_true, beq_iff_eq, decide_eq_true_eq] at hpred
          obtain ⟨⟨hsub, hlay⟩, ⟨⟨h1, h2⟩, h3⟩, h4⟩ := hpred
          exact ⟨hsub, hlay, c.1, c.2, rfl, h1, h2, h3, h4⟩
      · rintro ⟨hdb, b', hb', hsub, hlay, x, y, hcoords, h1, h2, h3, h4⟩
        have hbb : b' = b := (Option.some.inj hb').symm
        subst hbb
        refine ⟨hdb, ?_⟩
        simp [hcoords, hsub, hlay, h1, h2, h3, h4]
  · rfl

/-- C9 counterexample: two renders of the same location list return the
two distinct fresh temporary-file names chosen by the OS for the two
calls — the output path is not a deterministic function of the inputs
(layer/category), so repeated renders do not share (or overwrite) one
path. -/
theorem render_path_not_deterministic :
    generate_map_image (fun _ => true) [monsterLoc] "/tmp/tmp4a1b2c.png".data =
      some "/tmp/tmp4a1b2c.png".data ∧
    generate_map_image (fun _ => true) [monsterLoc] "/tmp/tmp9z8y7x.png".data =
      some "/tmp/tmp9z8y7x.png".data ∧
    ("/tmp/tmp4a1b2c.png".data : List Char) ≠ "/tmp/tmp9z8y7x.png".data :=
  ⟨rfl, rfl, by decide⟩

/-- C9 amended: `generate_map_image` writes to (and returns) exactly the
fresh temporary path supplied by `tempfile.NamedTemporaryFile` for that
call — a path independent of layer and category, fresh per call, so no
prior file is overwritten — provided the per-layer base map exists; an
empty location list returns `none`. -/
theorem render_path_is_temp_name :
    (∀ (pathExists : List Char → Bool) (locations : List Location)
        (tempName : List Char) (loc0 : Location) (rest : List Location),
      locations = loc0 :: rest →
      pathExists (map_image_path ++ ('/' :: (loc0.layer ++ ".jpg".data))) = true →
      generate_map_image pathExists locations tempName = some tempName) ∧
    (∀ (pathExists : List Char → Bool) (tempName : List Char),
      generate_map_image pathExists [] tempName = none) := by
  constructor
  · intro pe locs tn loc0 rest hlocs hex
    subst hlocs
    unfold generate_map_image
    simp [hex]
  · intro pe tn
    rfl

/-- Witness for `render_path_is_temp_name`. -/
theorem render_path_is_temp_name_witness :
    generate_map_image (fun _ => true) [monsterLoc] "/tmp/tmpfresh.png".data =
      some "/tmp/tmpfresh.png".data :=
  render_path_is_temp_name.1 (fun _ => true) [monsterLoc] "/tmp/tmpfresh.png".data
    monsterLoc [] rfl rfl
